import Mathlib

/-!
# Verification of the product-service repository

Shallow embedding of the cursor-pagination data layer, the pagination
codec, and the HTTP handler response mapping of the `product-service`
Go repository, together with theorems settling the frozen claims.

Modelling conventions:
* Go `error` values are embedded as `GoError`, a message plus an optional
  wrapped inner error (`fmt.Errorf` with `%w`); `errors.Is` is `GoError.is`.
* Go slices are embedded as `Option (List α)`: `none` is the `nil` slice
  (which JSON-encodes as `null`), `some l` a non-nil slice (which encodes
  as an array).  `var xs []T` starts as `none`; `append` yields `some`.
* `time.Time` values inside the data layer are embedded as instants,
  `Int` nanoseconds since the epoch (the data layer only compares and
  copies them); the pagination codec, which formats and parses them,
  embeds them as their UTC civil coordinates (`GoTime`).
* The SQL store is embedded as the list of table rows; a `SELECT ...
  WHERE p ORDER BY k LIMIT n` is `(List.insertionSort k (rows.filter
  p)).take n`, and `Get`/`Exec` driver failures are passed in explicitly
  where a claim depends on them.
-/

deriving instance DecidableEq for Except

/-! ## Go errors -/

/-- A Go `error` value: either a leaf (`errors.New`) or a formatted message
wrapping an inner error (`fmt.Errorf` with `%w`). -/
inductive GoError where
  | base (msg : String)
  | wrap (msg : String) (inner : GoError)
deriving DecidableEq, Repr

/-- `err.Error()`: the full message of the error. -/
def GoError.message : GoError → String
  | .base m => m
  | .wrap m _ => m

/-- Go `errors.Is`: does the unwrap chain of `e` reach `target`? -/
def GoError.is : GoError → GoError → Bool
  | .base m, target => GoError.base m == target
  | .wrap m inner, target => (GoError.wrap m inner == target) || inner.is target

/-! ## UUIDs

`uuid.UUID` is 16 bytes; SQL and Go compare UUIDs by their byte string,
which coincides with the numeric order of the 128-bit value. -/

structure UUID where
  bytes : List Nat
deriving DecidableEq, Repr

/-- The 128-bit value of a UUID, used for ordering. -/
def UUID.val (u : UUID) : Nat := u.bytes.foldl (fun a b => a * 256 + b) 0

/-- `uuid.Nil`, the all-zero UUID. -/
def UUID.zero : UUID := ⟨List.replicate 16 0⟩

def hexDigitChar (n : Nat) : Char :=
  if n < 10 then Char.ofNat (48 + n) else Char.ofNat (87 + n)

def byteHex (b : Nat) : List Char := [hexDigitChar (b / 16), hexDigitChar (b % 16)]

def bytesHex (bs : List Nat) : List Char := bs.foldr (fun b acc => byteHex b ++ acc) []

/-- `uuid.UUID.String()`: canonical lower-case hex 8-4-4-4-12 form. -/
def uuidToString (u : UUID) : String :=
  String.mk (bytesHex (u.bytes.take 4) ++ '-' ::
    bytesHex ((u.bytes.drop 4).take 2) ++ '-' ::
    bytesHex ((u.bytes.drop 6).take 2) ++ '-' ::
    bytesHex ((u.bytes.drop 8).take 2) ++ '-' ::
    bytesHex (u.bytes.drop 10))

/-! ## Data layer: common helpers (`internal/data_layer/common.go`) -/

/-- Package-level sentinel `ErrNotFound = errors.New("resource not found")`. -/
def ErrNotFound : GoError := .base "resource not found"

/-- `checkLimit(limit, minLimit, maxLimit int) int`. -/
def checkLimit (limit minLimit maxLimit : Int) : Int :=
  if limit < minLimit then minLimit
  else if limit > maxLimit then maxLimit
  else limit

/-- `checkRowsAffected(result sql.Result, op string) error`.  The
`sql.Result` is embedded by the outcome of its `RowsAffected()` call:
`.error e` when the affected-row count cannot be determined, `.ok rows`
otherwise.  `none` is Go `nil` (no error). -/
def checkRowsAffected (result : Except GoError Int) (op : String) : Option GoError :=
  match result with
  | .error err => some (.wrap (op ++ ": failed to get rows affected: " ++ err.message) err)
  | .ok rows =>
    if rows == 0 then
      some (.wrap (op ++ ": no rows affected: " ++ ErrNotFound.message) ErrNotFound)
    else
      none

/-! ## Data layer: categories (`category_repo.go`, cursor-paginated revision) -/

structure Category where
  id : UUID
  name : String
  description : String
  createdAt : Int
deriving DecidableEq, Repr

instance : Inhabited Category := ⟨⟨⟨[]⟩, "", "", 0⟩⟩

/-- `ORDER BY created_at ASC, id ASC`. -/
def catLE (a b : Category) : Prop :=
  a.createdAt < b.createdAt ∨ (a.createdAt = b.createdAt ∧ a.id.val ≤ b.id.val)

instance : DecidableRel catLE := fun a b => by unfold catLE; infer_instance

instance : IsTotal Category catLE := ⟨by intro a b; unfold catLE; omega⟩

instance : IsTrans Category catLE := ⟨by intro a b c; unfold catLE; omega⟩

instance : IsRefl Category catLE := ⟨by intro a; unfold catLE; omega⟩

/-- `ListCategoryResult`; `Categories` is a Go slice (`none` = nil). -/
structure ListCategoryResult where
  Categories : Option (List Category)
  NextCursor : Int
  HasMore : Bool
  Error : Option GoError
deriving DecidableEq, Repr

/-- Rows of `SELECT ... FROM categories WHERE created_at >= :created_at
ORDER BY created_at ASC, id ASC` over the table `store`. -/
def matchingCategories (store : List Category) (createdAfter : Int) : List Category :=
  List.insertionSort catLE (store.filter (fun c => decide (createdAfter ≤ c.createdAt)))

/-- `(r *CategoryRepo) ListCategories(ctx, createdAfter, limit)` on the
success path (no query or scan failure): clamp the limit, fetch
`limit+1` ordered matching rows, and post-process exactly as the Go
code does. -/
def listCategories (store : List Category) (minLimit maxLimit : Int)
    (createdAfter : Int) (limit : Int) : ListCategoryResult :=
  let l := checkLimit limit minLimit maxLimit
  let fetchLimit := l + 1
  let rows := (matchingCategories store createdAfter).take fetchLimit.toNat
  if rows.length = 0 then
    { Categories := some [], NextCursor := 0, HasMore := false, Error := none }
  else if (rows.length : Int) = fetchLimit then
    { Categories := some (rows.take l.toNat)
      NextCursor := (rows.getD l.toNat default).createdAt
      HasMore := true
      Error := none }
  else
    { Categories := some rows, NextCursor := 0, HasMore := false, Error := none }

/-- `db.GetContext` over the categories table: the row with the given id,
or `sql.ErrNoRows`. -/
def sqlErrNoRows : GoError := .base "sql: no rows in result set"

def dbGetCategory (store : List Category) (id : UUID) : Except GoError Category :=
  match store.find? (fun c => c.id == id) with
  | some c => .ok c
  | none => .error sqlErrNoRows

/-- `(r *CategoryRepo) GetCategoryByID`, parameterized by the `GetContext`
outcome. -/
def getCategoryByID (id : UUID) (dbResult : Except GoError Category) :
    Except GoError Category :=
  match dbResult with
  | .ok c => .ok c
  | .error err =>
    if err.is sqlErrNoRows then
      .error (.wrap ("getCategoryByID: " ++ ErrNotFound.message ++ ": id `" ++
        (uuidToString id) ++ "`") ErrNotFound)
    else
      .error (.wrap ("getCategoryByID: select query failed: " ++ err.message) err)

/-- `GetCategoryByID` against a concrete store with a healthy database. -/
def getCategoryByIDFromStore (store : List Category) (id : UUID) :
    Except GoError Category :=
  getCategoryByID id (dbGetCategory store id)

/-- `(r *CategoryRepo) CreateCategory`, parameterized by the outcome of
`NamedExecContext` (`.error e` = query execution failed, `.ok result` =
executed, with `result` the `RowsAffected()` outcome). -/
def createCategory (execResult : Except GoError (Except GoError Int)) : Option GoError :=
  match execResult with
  | .error err => some (.wrap ("createCategory: insert query failed: " ++ err.message) err)
  | .ok result => checkRowsAffected result "createCategory"

/-- `(r *CategoryRepo) UpdateCategory`, same shape. -/
def updateCategory (execResult : Except GoError (Except GoError Int)) : Option GoError :=
  match execResult with
  | .error err => some (.wrap ("updateCategory: update query failed: " ++ err.message) err)
  | .ok result => checkRowsAffected result "updateCategory"

/-- `(r *CategoryRepo) DeleteCategory`, same shape. -/
def deleteCategory (execResult : Except GoError (Except GoError Int)) : Option GoError :=
  match execResult with
  | .error err => some (.wrap ("deleteCategory: delete query failed: " ++ err.message) err)
  | .ok result => checkRowsAffected result "deleteCategory"

/-! ## Data layer: products (`internal/data_layer/product_repo.go`)

This revision pages by id (`WHERE id > :id ORDER BY id ASC`), uses the
package constants `minLimit = 1`, `maxLimit = 1000` and the sentinels
`errNotFound`/`errDBFailure` with format `"%s failed: %w (db error: %v)"`.
The `price float64` column is not modelled (floating point); no claim
mentions it. -/

def errNotFoundP : GoError := .base "record not found"

def errDBFailureP : GoError := .base "database failure"

def productMinLimit : Int := 1

def productMaxLimit : Int := 1000

structure Product where
  id : UUID
  name : String
  description : String
  imageURL : String
  categoryID : UUID
  quantity : Int
  createdAt : Int
deriving DecidableEq, Repr

/-- `ORDER BY id ASC`. -/
def prodLE (a b : Product) : Prop := a.id.val ≤ b.id.val

instance : DecidableRel prodLE := fun a b => by unfold prodLE; infer_instance

instance : IsTotal Product prodLE := ⟨by intro a b; unfold prodLE; omega⟩

instance : IsTrans Product prodLE := ⟨by intro a b c; unfold prodLE; omega⟩

/-- `(r *ProductRepo) ListProducts(ctx, id, limit)` on the success path.
The accumulated slice starts `nil` and is returned as-is: zero matching
rows yield the `nil` slice (`none`), not an empty array. -/
def listProducts (store : List Product) (afterId : UUID) (limit : Int) :
    Except GoError (Option (List Product)) :=
  let l := checkLimit limit productMinLimit productMaxLimit
  let rows := (List.insertionSort prodLE
    (store.filter (fun p => decide (afterId.val < p.id.val)))).take l.toNat
  .ok (if rows.isEmpty then none else some rows)

/-- `(r *ProductRepo) GetProductByID` against a concrete store with a
healthy database: `stmt.Next()` false means not found. -/
def getProductByIDFromStore (store : List Product) (id : UUID) :
    Except GoError Product :=
  match store.find? (fun p => p.id == id) with
  | some p => .ok p
  | none =>
    .error (.wrap ("GetProductByID failed: " ++ errNotFoundP.message ++
      " (db error: <nil>)") errNotFoundP)

/-! ## Pagination codec: URL-safe padding-free base64 (`encoding/base64`)

`base64.RawURLEncoding`: alphabet `A-Za-z0-9-_`, no `=` padding.  Encoding
turns 3 bytes into 4 characters (tails of 1 or 2 bytes into 2 or 3
characters); decoding is Go's default (non-strict) decode, which rejects
characters outside the alphabet and inputs of length `4k+1`. -/

def b64Alphabet : List Char :=
  ['A', 'B', 'C', 'D', 'E', 'F', 'G', 'H', 'I', 'J', 'K', 'L', 'M',
   'N', 'O', 'P', 'Q', 'R', 'S', 'T', 'U', 'V', 'W', 'X', 'Y', 'Z',
   'a', 'b', 'c', 'd', 'e', 'f', 'g', 'h', 'i', 'j', 'k', 'l', 'm',
   'n', 'o', 'p', 'q', 'r', 's', 't', 'u', 'v', 'w', 'x', 'y', 'z',
   '0', '1', '2', '3', '4', '5', '6', '7', '8', '9', '-', '_']

def b64Char (n : Nat) : Char := b64Alphabet.getD n 'A'

def b64Digit (c : Char) : Option Nat := List.findIdx? (fun a => a == c) b64Alphabet

def encodeB64 : List Nat → List Char
  | b1 :: b2 :: b3 :: rest =>
    b64Char (b1 / 4) :: b64Char (b1 % 4 * 16 + b2 / 16) ::
      b64Char (b2 % 16 * 4 + b3 / 64) :: b64Char (b3 % 64) :: encodeB64 rest
  | [b1, b2] => [b64Char (b1 / 4), b64Char (b1 % 4 * 16 + b2 / 16), b64Char (b2 % 16 * 4)]
  | [b1] => [b64Char (b1 / 4), b64Char (b1 % 4 * 16)]
  | [] => []

def decodeB64 : List Char → Option (List Nat)
  | c1 :: c2 :: c3 :: c4 :: rest => do
    let d1 ← b64Digit c1
    let d2 ← b64Digit c2
    let d3 ← b64Digit c3
    let d4 ← b64Digit c4
    let tail ← decodeB64 rest
    pure ((d1 * 4 + d2 / 16) :: (d2 % 16 * 16 + d3 / 4) :: (d3 % 4 * 64 + d4) :: tail)
  | [c1, c2, c3] => do
    let d1 ← b64Digit c1
    let d2 ← b64Digit c2
    let d3 ← b64Digit c3
    pure [d1 * 4 + d2 / 16, d2 % 16 * 16 + d3 / 4]
  | [c1, c2] => do
    let d1 ← b64Digit c1
    let d2 ← b64Digit c2
    pure [d1 * 4 + d2 / 16]
  | [_] => none
  | [] => some []

/-! ## Pagination codec: timestamps (`time.Time`, RFC3339Nano)

A `time.Time` instant is embedded by its civil coordinates in UTC
(`GoTime`); `t.UTC()` only changes the location tag of a Go time, so on
this representation it is the identity.  `Format(time.RFC3339Nano)`
renders the coordinates (year padded to at least four digits, fractional
second with trailing zeros trimmed and omitted entirely when zero);
`time.Parse(time.RFC3339Nano, s)` reads them back, validates the field
ranges exactly as Go does (including day-in-month), and normalizes a
numeric zone offset back to UTC. -/

structure GoTime where
  year : Int
  month : Nat
  day : Nat
  hour : Nat
  minute : Nat
  second : Nat
  nano : Nat
deriving DecidableEq, Repr

def isLeapYear (y : Int) : Bool := y % 4 == 0 && (y % 100 != 0 || y % 400 == 0)

def daysInMonth (y : Int) (m : Nat) : Nat :=
  if m = 2 then (if isLeapYear y then 29 else 28)
  else if m = 4 ∨ m = 6 ∨ m = 9 ∨ m = 11 then 30
  else 31

/-- Field ranges under which the civil coordinates denote a real instant. -/
def GoTime.Valid (t : GoTime) : Prop :=
  1 ≤ t.month ∧ t.month ≤ 12 ∧ 1 ≤ t.day ∧ t.day ≤ daysInMonth t.year t.month ∧
    t.hour ≤ 23 ∧ t.minute ≤ 59 ∧ t.second ≤ 59 ∧ t.nano < 1000000000

instance (t : GoTime) : Decidable t.Valid := by unfold GoTime.Valid; infer_instance

def digitChar (d : Nat) : Char := Char.ofNat (48 + d)

/-- Exactly `k` decimal digits of `n < 10^k`, most significant first
(zero-padded on the left). -/
def natDigits : Nat → Nat → List Char
  | 0, _ => []
  | k + 1, n => digitChar (n / 10 ^ k) :: natDigits k (n % 10 ^ k)

/-- Year field as Go's `appendInt(b, year, 4)`: sign, then the absolute
value zero-padded to at least four digits. -/
def renderYear (y : Int) : List Char :=
  let n := y.natAbs
  let digits := if n < 10000 then natDigits 4 n else Nat.toDigits 10 n
  if y < 0 then '-' :: digits else digits

def trimTrailingZeros (l : List Char) : List Char :=
  (l.reverse.dropWhile (fun c => c == '0')).reverse

/-- Fractional-second part of `RFC3339Nano` (`.999999999`): omitted when
zero, otherwise a dot and the nine digits with trailing zeros trimmed. -/
def renderFrac (nano : Nat) : List Char :=
  if nano = 0 then [] else '.' :: trimTrailingZeros (natDigits 9 nano)

/-- `t.Format(time.RFC3339Nano)` for a UTC time. -/
def renderRFC3339Nano (t : GoTime) : List Char :=
  renderYear t.year ++ '-' :: natDigits 2 t.month ++ '-' :: natDigits 2 t.day ++
    'T' :: natDigits 2 t.hour ++ ':' :: natDigits 2 t.minute ++
    ':' :: natDigits 2 t.second ++ renderFrac t.nano ++ ['Z']

/-- Read exactly `k` decimal digits, most significant first. -/
def readDigits (acc : Nat) : Nat → List Char → Option (Nat × List Char)
  | 0, cs => some (acc, cs)
  | k + 1, c :: cs =>
    if c.isDigit then readDigits (acc * 10 + (c.toNat - 48)) k cs else none
  | _ + 1, [] => none

def digitsVal (l : List Char) : Nat := l.foldl (fun a c => a * 10 + (c.toNat - 48)) 0

/-- Value of a parsed fraction: Go keeps at most nanosecond precision
(the first nine digits, right-padded with zeros). -/
def fracVal (ds : List Char) : Nat :=
  digitsVal (ds.take 9 ++ List.replicate (9 - (ds.take 9).length) '0')

/-- Optional `.digits` fractional-second field. -/
def parseFrac : List Char → Option (Nat × List Char)
  | '.' :: rest =>
    let ds := rest.takeWhile Char.isDigit
    if ds.isEmpty then none else some (fracVal ds, rest.dropWhile Char.isDigit)
  | cs => some (0, cs)

/-- Zone: `Z`, or `±hh:mm` with `hh ≤ 23`, `mm ≤ 59`; the result is the
offset east of UTC in minutes.  Must consume the rest of the input. -/
def parseZone : List Char → Option Int
  | ['Z'] => some 0
  | c :: rest =>
    if c = '+' ∨ c = '-' then
      match readDigits 0 2 rest with
      | some (hh, ':' :: rest2) =>
        match readDigits 0 2 rest2 with
        | some (mm, []) =>
          if hh ≤ 23 ∧ mm ≤ 59 then
            some ((if c = '+' then 1 else -1) * ((hh : Int) * 60 + (mm : Int)))
          else none
        | _ => none
      | _ => none
    else none
  | _ => none

def prevDate (y : Int) (m d : Nat) : Int × Nat × Nat :=
  if 1 < d then (y, m, d - 1)
  else if 1 < m then (y, m - 1, daysInMonth y (m - 1))
  else (y - 1, 12, 31)

def nextDate (y : Int) (m d : Nat) : Int × Nat × Nat :=
  if d < daysInMonth y m then (y, m, d + 1)
  else if m < 12 then (y, m + 1, 1)
  else (y + 1, 1, 1)

/-- Normalize a parsed civil time with zone offset `off` (minutes east)
back to UTC coordinates; an offset moves the date by at most one day. -/
def applyZone (year : Int) (month day hour minute second nano : Nat) (off : Int) : GoTime :=
  let total : Int := (hour : Int) * 60 + (minute : Int) - off
  if total < 0 then
    let ymd := prevDate year month day
    ⟨ymd.1, ymd.2.1, ymd.2.2, ((total + 1440) / 60).toNat, ((total + 1440) % 60).toNat,
      second, nano⟩
  else if 1440 ≤ total then
    let ymd := nextDate year month day
    ⟨ymd.1, ymd.2.1, ymd.2.2, ((total - 1440) / 60).toNat, ((total - 1440) % 60).toNat,
      second, nano⟩
  else
    ⟨year, month, day, (total / 60).toNat, (total % 60).toNat, second, nano⟩

/-- Consume one expected literal character. -/
def expectChar (c : Char) : List Char → Option (List Char)
  | [] => none
  | x :: rest => if x == c then some rest else none

/-- `time.Parse(time.RFC3339Nano, s)`: `YYYY-MM-DDThh:mm:ss[.frac](Z|±hh:mm)`
with Go's range validation; the year field is exactly four digits. -/
def parseRFC3339Nano (cs : List Char) : Option GoTime := do
  let (year, cs) ← readDigits 0 4 cs
  let cs ← expectChar '-' cs
  let (month, cs) ← readDigits 0 2 cs
  let cs ← expectChar '-' cs
  let (day, cs) ← readDigits 0 2 cs
  let cs ← expectChar 'T' cs
  let (hour, cs) ← readDigits 0 2 cs
  let cs ← expectChar ':' cs
  let (minute, cs) ← readDigits 0 2 cs
  let cs ← expectChar ':' cs
  let (second, cs) ← readDigits 0 2 cs
  let (nano, cs) ← parseFrac cs
  let off ← parseZone cs
  if 1 ≤ month ∧ month ≤ 12 ∧ 1 ≤ day ∧ day ≤ daysInMonth (year : Int) month ∧
      hour ≤ 23 ∧ minute ≤ 59 ∧ second ≤ 59 then
    some (applyZone (year : Int) month day hour minute second nano off)
  else
    none

/-! ## Pagination codec: cursor functions (`internal/handlers/common.go`) -/

def charsToBytes (cs : List Char) : List Nat := cs.map Char.toNat

def bytesToChars (bs : List Nat) : List Char := bs.map Char.ofNat

/-- `EncodeTimeToCursor(t)`: `t.UTC().Format(time.RFC3339Nano)` (the
identity on UTC coordinates, then render), then raw URL-safe base64. -/
def EncodeTimeToCursor (t : GoTime) : String :=
  String.mk (encodeB64 (charsToBytes (renderRFC3339Nano t)))

def invalidCursorEncodingErr (cursor : String) : GoError :=
  .base ("invalid cursor encoding: " ++ cursor)

def invalidCursorTimeErr (cursor : String) : GoError :=
  .base ("invalid cursor time format: " ++ cursor)

/-- `DecodeCursorToTime(cursor)`: base64-decode, then parse RFC3339Nano. -/
def DecodeCursorToTime (cursor : String) : Except GoError GoTime :=
  match decodeB64 cursor.data with
  | none => .error (invalidCursorEncodingErr cursor)
  | some bs =>
    match parseRFC3339Nano (bytesToChars bs) with
    | none => .error (invalidCursorTimeErr cursor)
    | some t => .ok t

/-! ## Handlers: UUID path parameter (`ParseUUIDParam`)

`mux.Vars(r)[param]` is embedded as an `Option String`.  `uuid.Parse` is
modelled for the canonical 36-character 8-4-4-4-12 form (the only form
the service's routes and claims exercise). -/

def hexVal (c : Char) : Option Nat :=
  if '0' ≤ c ∧ c ≤ '9' then some (c.toNat - 48)
  else if 'a' ≤ c ∧ c ≤ 'f' then some (c.toNat - 87)
  else if 'A' ≤ c ∧ c ≤ 'F' then some (c.toNat - 55)
  else none

def hexPairs : List Char → Option (List Nat)
  | [] => some []
  | [_] => none
  | c1 :: c2 :: rest => do
    let h ← hexVal c1
    let l ← hexVal c2
    let t ← hexPairs rest
    pure ((h * 16 + l) :: t)

/-- `uuid.Parse` on the canonical hyphenated form. -/
def uuidParse (s : String) : Option UUID :=
  let cs := s.data
  if cs.length = 36 ∧ cs.getD 8 ' ' = '-' ∧ cs.getD 13 ' ' = '-' ∧
      cs.getD 18 ' ' = '-' ∧ cs.getD 23 ' ' = '-' then
    (hexPairs (cs.take 8 ++ (cs.drop 9).take 4 ++ (cs.drop 14).take 4 ++
      (cs.drop 19).take 4 ++ cs.drop 24)).map UUID.mk
  else
    none

/-- `ParseUUIDParam(r, param)`: missing or empty path variable, then
`uuid.Parse`, then the explicit `uuid.Nil` rejection. -/
def ParseUUIDParam (vars : Option String) (param : String) : Except GoError UUID :=
  match vars with
  | none => .error (.base ("param not found: `" ++ param ++ "`"))
  | some s =>
    if s = "" then .error (.base ("param not found: `" ++ param ++ "`"))
    else
      match uuidParse s with
      | none => .error (.base "invalid UUID format")
      | some u =>
        if u = UUID.zero then
          .error (.base ("invalid id param: `" ++ uuidToString u ++ "`"))
        else
          .ok u

/-! ## Handlers: query parameters (`ParseCursor`, `ParseLimit`) -/

/-- The `time.Time` zero value in UTC coordinates (January 1, year 1). -/
def goTimeZero : GoTime := ⟨1, 1, 1, 0, 0, 0, 0⟩

/-- `ParseCursor(r)`: `r.URL.Query().Get("cursor")` is `""` when absent. -/
def ParseCursor (cursorParam : Option String) : Except GoError GoTime :=
  match cursorParam with
  | none => .ok goTimeZero
  | some s => if s = "" then .ok goTimeZero else DecodeCursorToTime s

/-- `strconv.ParseInt(s, 10, 32)`: optional sign, decimal digits, 32-bit
range check. -/
def parseIntGo (s : String) : Except GoError Int :=
  let signDigits : Int × List Char :=
    match s.data with
    | '+' :: rest => (1, rest)
    | '-' :: rest => (-1, rest)
    | rest => (1, rest)
  let ds := signDigits.2
  if ds.isEmpty then .error (.base ("parsing " ++ s ++ ": invalid syntax"))
  else if ¬ ds.all Char.isDigit then .error (.base ("parsing " ++ s ++ ": invalid syntax"))
  else
    let v : Int := signDigits.1 * (digitsVal ds : Int)
    if v < -2147483648 ∨ 2147483647 < v then
      .error (.base ("parsing " ++ s ++ ": value out of range"))
    else
      .ok v

/-- `ParseLimit(r)`: empty string is the "unspecified" sentinel `0`. -/
def ParseLimit (limitParam : Option String) : Except GoError Int :=
  match limitParam with
  | none => .ok 0
  | some s => if s = "" then .ok 0 else parseIntGo s

/-- `ParseAndValidatePagination`: `none` is the `isValid = false` outcome. -/
def ParseAndValidatePagination (cursorParam limitParam : Option String) :
    Option (GoTime × Int) :=
  match ParseCursor cursorParam with
  | .error _ => none
  | .ok cursor =>
    match ParseLimit limitParam with
    | .error _ => none
    | .ok limit => some (cursor, limit)

/-! ## Handlers: response envelope and category handlers -/

def ErrCodeInternalServerError : Nat := 1600

def ErrCodeInvalidFieldFormat : Nat := 1002

def ErrCodeResourceNotFound : Nat := 1300

/-- A response body: either a success envelope (`status: "success"`) or an
error envelope (`status: "error"`, with code and message).  The success
payload carried here is what the claims inspect: the message and the
pagination pair (has-more, next-cursor instant). -/
inductive Envelope where
  | success (message : String) (pagination : Option (Bool × Int))
  | failure (code : Nat) (message : String)
deriving DecidableEq, Repr

def envelopeStatus : Envelope → String
  | .success _ _ => "success"
  | .failure _ _ => "error"

/-- `(h *CategoryHandler) GetCategory`, as a function of the `id` path
variable and of the repository (`GetCategoryByID`) outcome.  Returns the
list of responses written and whether the repository was invoked. -/
def GetCategory (idParam : Option String) (repo : UUID → Except GoError Category) :
    List (Nat × Envelope) × Bool :=
  match ParseUUIDParam idParam "id" with
  | .error _ => ([(400, .failure ErrCodeInvalidFieldFormat "Invalid field format")], false)
  | .ok id =>
    match repo id with
    | .error err =>
      if err.is ErrNotFound then
        ([(400, .failure ErrCodeResourceNotFound "Resource not found")], true)
      else
        ([(500, .failure ErrCodeInternalServerError "Internal server error")], true)
    | .ok _ => ([(200, .success "Category fetched successfully" none)], true)

/-- `(h *CategoryHandler) ListCategories`, as a function of the query
parameters and of the repository (`ListCategories`) outcome. -/
def ListCategoriesHandler (cursorParam limitParam : Option String)
    (repo : GoTime → Int → ListCategoryResult) : List (Nat × Envelope) :=
  match ParseAndValidatePagination cursorParam limitParam with
  | none => [(400, .failure ErrCodeInvalidFieldFormat "Invalid field format")]
  | some parsed =>
    let result := repo parsed.1 parsed.2
    match result.Error with
    | some _ => [(500, .failure ErrCodeInternalServerError "Internal server error")]
    | none =>
      [(200, .success "Categories fetched successfully"
        (some (result.HasMore, result.NextCursor)))]

/-! ## Handlers: `WriteResponse` (buffered serialization, `common.go`)

`json.NewEncoder(&buf).Encode(details)` may emit a byte prefix and then
fail (e.g. on a cyclic value); the buffer absorbs that prefix, so the
client never sees it.  A body value is embedded with its encode outcome:
`encodable json`, or `unencodable pfx` (the prefix the encoder emitted
into the buffer before failing).  The client writer either accepts a
whole buffer or fails; `writeFails` selects its behavior. -/

inductive BodyVal where
  | encodable (json : String)
  | unencodable (pfx : String)
deriving DecidableEq, Repr

/-- What one request handler run left behind: the committed status code,
the successfully delivered body chunks, and the operator log lines. -/
structure HTTPTrace where
  status : Option Nat
  chunks : List String
  logs : List String
deriving DecidableEq, Repr

/-- JSON text of `HTTPErrorResponse{Status: "error", Error: {code, message}}`. -/
def errorEnvelopeJSON (code : Nat) (message : String) : String :=
  "\x7b\"status\":\"error\",\"error\":\x7b\"code\":" ++ toString code ++
    ",\"message\":\"" ++ message ++ "\"\x7d\x7d"

/-- Tail of `WriteResponse` after encoding: set headers, write the status,
copy the buffer to the client; a copy failure is only logged. -/
def writeBuffered (statusCode : Nat) (buf : String) (writeFails : Bool) : HTTPTrace :=
  if buf.length = 0 then { status := some statusCode, chunks := [], logs := [] }
  else if writeFails then
    { status := some statusCode, chunks := []
      logs := ["error writing response to client"] }
  else
    { status := some statusCode, chunks := [buf], logs := [] }

/-- `WriteResponse(w, statusCode, details, op, logger)`.  On an encode
failure the buffered prefix is discarded and the handler falls back to
`WriteErrorResponse(500, 1600, ...)`, whose envelope always encodes. -/
def WriteResponse (statusCode : Nat) (details : Option BodyVal) (writeFails : Bool) :
    HTTPTrace :=
  match details with
  | none => writeBuffered statusCode "" writeFails
  | some (.encodable j) => writeBuffered statusCode j writeFails
  | some (.unencodable _) =>
    let inner :=
      writeBuffered 500 (errorEnvelopeJSON ErrCodeInternalServerError "Internal server error")
        writeFails
    { status := inner.status
      chunks := inner.chunks
      logs := "error encoding json response" :: inner.logs }

/-! ## String containment (`strings.Contains`), used to state message claims -/

def isPrefixCheck : List Char → List Char → Bool
  | [], _ => true
  | _ :: _, [] => false
  | a :: as, b :: bs => a == b && isPrefixCheck as bs

/-- Does `pat` occur as a contiguous run inside the second list? -/
def isInfixCheck (pat : List Char) : List Char → Bool
  | [] => isPrefixCheck pat []
  | c :: rest => isPrefixCheck pat (c :: rest) || isInfixCheck pat rest

/-- `strings.Contains(s, pat)`. -/
def stringContains (s pat : String) : Bool := isInfixCheck pat.data s.data

/-! ## Sample rows used by concrete counterexamples -/

/-- Two category rows created at the same instant (equal `created_at`,
distinct ids) — the boundary-tie scenario. -/
def catA : Category := ⟨⟨[1]⟩, "A", "first", 5⟩

def catB : Category := ⟨⟨[2]⟩, "B", "second", 5⟩

/-! ## Claims -/

/-- **C4.** `DecodeCursorToTime` is a pure function of its input token with
exactly two failure modes: an invalid-cursor error when the token is not
valid URL-safe base64, an invalid-cursor error when the decoded bytes do
not parse as an RFC3339Nano timestamp, and success on every other input
(purity and absence of I/O are intrinsic to the embedding: the function
depends on nothing but the token). -/
theorem C4_decode_failure_modes (s : String) :
    (decodeB64 s.data = none →
      DecodeCursorToTime s = .error (invalidCursorEncodingErr s)) ∧
    (∀ bs, decodeB64 s.data = some bs → parseRFC3339Nano (bytesToChars bs) = none →
      DecodeCursorToTime s = .error (invalidCursorTimeErr s)) ∧
    (∀ bs t, decodeB64 s.data = some bs → parseRFC3339Nano (bytesToChars bs) = some t →
      DecodeCursorToTime s = .ok t) ∧
    (∀ e, DecodeCursorToTime s = .error e →
      e = invalidCursorEncodingErr s ∨ e = invalidCursorTimeErr s) := by
  refine ⟨fun h => by simp [DecodeCursorToTime, h],
    fun bs h hp => by simp [DecodeCursorToTime, h, hp],
    fun bs t h hp => by simp [DecodeCursorToTime, h, hp],
    fun e he => ?_⟩
  rcases hd : decodeB64 s.data with _ | bs
  · left
    have h1 : DecodeCursorToTime s = .error (invalidCursorEncodingErr s) := by
      simp [DecodeCursorToTime, hd]
    rw [h1] at he
    injection he with h
    exact h.symm
  · rcases hp : parseRFC3339Nano (bytesToChars bs) with _ | t
    · right
      have h1 : DecodeCursorToTime s = .error (invalidCursorTimeErr s) := by
        simp [DecodeCursorToTime, hd, hp]
      rw [h1] at he
      injection he with h
      exact h.symm
    · have h1 : DecodeCursorToTime s = .ok t := by
        simp [DecodeCursorToTime, hd, hp]
      rw [h1] at he
      cases he

/-- Witness for C4 at the concrete token `"!!!"` ('!' is outside the
base64 alphabet, so byte decoding fails). -/
theorem C4_witness :
    DecodeCursorToTime "!!!" = .error (invalidCursorEncodingErr "!!!") :=
  (C4_decode_failure_modes "!!!").1 (by decide)

/-- **C10.** `ParseUUIDParam` rejects the all-zero UUID: for the
syntactically well-formed `id` value `00000000-0000-0000-0000-000000000000`
(and likewise when the `id` variable is absent or empty), the parse errors
and `GetCategory` responds 400 / invalid-field-format (1002) without ever
invoking the repository. -/
theorem C10_zero_uuid_rejected (repo : UUID → Except GoError Category) :
    (∃ e, ParseUUIDParam (some "00000000-0000-0000-0000-000000000000") "id" = .error e) ∧
    GetCategory (some "00000000-0000-0000-0000-000000000000") repo =
      ([(400, .failure ErrCodeInvalidFieldFormat "Invalid field format")], false) ∧
    GetCategory none repo =
      ([(400, .failure ErrCodeInvalidFieldFormat "Invalid field format")], false) ∧
    GetCategory (some "") repo =
      ([(400, .failure ErrCodeInvalidFieldFormat "Invalid field format")], false) := by
  have hzero : ParseUUIDParam (some "00000000-0000-0000-0000-000000000000") "id" =
      .error (.base ("invalid id param: `00000000-0000-0000-0000-000000000000`")) := by
    decide
  have hnone : ParseUUIDParam (none : Option String) "id" =
      .error (.base ("param not found: `id`")) := by decide
  have hempty : ParseUUIDParam (some "") "id" =
      .error (.base ("param not found: `id`")) := by decide
  refine ⟨⟨_, hzero⟩, ?_, ?_, ?_⟩
  · unfold GetCategory
    rw [hzero]
  · unfold GetCategory
    rw [hnone]
  · unfold GetCategory
    rw [hempty]

/-- **C2.** Category handler error mapping: a parameter parse failure
(identifier, cursor, or limit) yields 400 / invalid-field-format (1002); a
repository error wrapping `ErrNotFound` yields 400 (not 404) /
resource-not-found (1300); any other repository error yields 500 /
internal-server-error (1600); and each branch writes exactly one
envelope, whose status is `"error"` in every error branch. -/
theorem C2_handler_error_mapping :
    (∀ p repo e, ParseUUIDParam p "id" = .error e →
      GetCategory p repo =
        ([(400, .failure ErrCodeInvalidFieldFormat "Invalid field format")], false)) ∧
    (∀ p repo u err, ParseUUIDParam p "id" = .ok u → repo u = .error err →
      err.is ErrNotFound = true →
      GetCategory p repo =
        ([(400, .failure ErrCodeResourceNotFound "Resource not found")], true)) ∧
    (∀ p repo u err, ParseUUIDParam p "id" = .ok u → repo u = .error err →
      err.is ErrNotFound = false →
      GetCategory p repo =
        ([(500, .failure ErrCodeInternalServerError "Internal server error")], true)) ∧
    (∀ cp lp repo, ParseAndValidatePagination cp lp = none →
      ListCategoriesHandler cp lp repo =
        [(400, .failure ErrCodeInvalidFieldFormat "Invalid field format")]) ∧
    (∀ cp lp repo parsed e, ParseAndValidatePagination cp lp = some parsed →
      (repo parsed.1 parsed.2).Error = some e →
      ListCategoriesHandler cp lp repo =
        [(500, .failure ErrCodeInternalServerError "Internal server error")]) ∧
    (∀ p repo, ((GetCategory p repo).1).length = 1) ∧
    (∀ cp lp repo, (ListCategoriesHandler cp lp repo).length = 1) ∧
    (∀ code msg, envelopeStatus (.failure code msg) = "error") := by
  refine ⟨?_, ?_, ?_, ?_, ?_, ?_, ?_, fun _ _ => rfl⟩
  · intro p repo e h
    unfold GetCategory
    rw [h]
  · intro p repo u err hp hr his
    unfold GetCategory
    rw [hp]
    simp only [hr, his]
    rfl
  · intro p repo u err hp hr his
    unfold GetCategory
    rw [hp]
    simp only [hr, his]
    rfl
  · intro cp lp repo h
    unfold ListCategoriesHandler
    rw [h]
  · intro cp lp repo parsed e hp he
    unfold ListCategoriesHandler
    rw [hp]
    simp only [he]
  · intro p repo
    unfold GetCategory
    cases hp : ParseUUIDParam p "id" with
    | error e => rfl
    | ok u =>
      cases hr : repo u with
      | error e =>
        by_cases h : e.is ErrNotFound = true
        · simp [hr, h]
        · simp [hr, h]
      | ok c => simp [hr]
  · intro cp lp repo
    unfold ListCategoriesHandler
    cases hp : ParseAndValidatePagination cp lp with
    | none => rfl
    | some parsed =>
      cases h : (repo parsed.1 parsed.2).Error with
      | none => simp [h]
      | some e => simp [h]

/-- Witness for C2 at concrete inputs: a malformed id, and a repository
returning a wrapped `ErrNotFound` for a valid id. -/
theorem C2_witness :
    GetCategory (some "not-a-uuid") (fun _ => .ok default) =
      ([(400, .failure ErrCodeInvalidFieldFormat "Invalid field format")], false) ∧
    GetCategory (some "f2aa335f-6f91-4d4d-8057-53b0009bc376")
        (fun _ => .error (.wrap "getCategoryByID: resource not found: id `x`" ErrNotFound)) =
      ([(400, .failure ErrCodeResourceNotFound "Resource not found")], true) := by
  constructor
  · exact C2_handler_error_mapping.1 (some "not-a-uuid") _ (.base "invalid UUID format")
      (by decide)
  · exact C2_handler_error_mapping.2.1 (some "f2aa335f-6f91-4d4d-8057-53b0009bc376") _
      ⟨[0xf2, 0xaa, 0x33, 0x5f, 0x6f, 0x91, 0x4d, 0x4d,
        0x80, 0x57, 0x53, 0xb0, 0x00, 0x9b, 0xc3, 0x76]⟩
      (.wrap "getCategoryByID: resource not found: id `x`" ErrNotFound)
      (by decide) rfl (by decide)

/-- **C6.** For a Create/Update/Delete whose SQL execution succeeds: a
zero affected-row count fails with an error wrapping `ErrNotFound`
(`errors.Is` holds), distinct from a query-execution error; an
undeterminable affected-row count fails with a database-failure error
that does not wrap `ErrNotFound` (provided the driver error itself does
not, which no driver error does). -/
theorem C6_rows_affected_contract :
    (∀ (op : String), ∃ e, checkRowsAffected (.ok 0) op = some e ∧
      e.is ErrNotFound = true ∧
      e.message = op ++ ": no rows affected: " ++ ErrNotFound.message) ∧
    (∀ (op : String) (e0 : GoError), e0.is ErrNotFound = false →
      ∃ e, checkRowsAffected (.error e0) op = some e ∧ e.is ErrNotFound = false) ∧
    (∀ (rows : Int) (op : String), rows ≠ 0 → checkRowsAffected (.ok rows) op = none) ∧
    (∀ result, createCategory (.ok result) = checkRowsAffected result "createCategory") ∧
    (∀ result, updateCategory (.ok result) = checkRowsAffected result "updateCategory") ∧
    (∀ result, deleteCategory (.ok result) = checkRowsAffected result "deleteCategory") ∧
    (∀ (e0 : GoError) (e : GoError), e0.is ErrNotFound = false →
      createCategory (.error e0) = some e → e.is ErrNotFound = false) := by
  refine ⟨?_, ?_, ?_, fun _ => rfl, fun _ => rfl, fun _ => rfl, ?_⟩
  · intro op
    refine ⟨_, rfl, ?_, rfl⟩
    simp [GoError.is, ErrNotFound]
  · intro op e0 h0
    refine ⟨_, rfl, ?_⟩
    simp only [GoError.is, Bool.or_eq_false_iff]
    exact ⟨by simp [ErrNotFound], h0⟩
  · intro rows op h
    simp [checkRowsAffected, h]
  · intro e0 e h0 he
    unfold createCategory at he
    injection he with h1
    subst h1
    simp only [GoError.is, Bool.or_eq_false_iff]
    exact ⟨by simp [ErrNotFound], h0⟩

/-- Witness for C6 at a concrete operation and driver error. -/
theorem C6_witness :
    (∃ e, checkRowsAffected (.ok 0) "createCategory" = some e ∧
      e.is ErrNotFound = true ∧
      e.message = "createCategory" ++ ": no rows affected: " ++ ErrNotFound.message) ∧
    (∃ e, checkRowsAffected (.error (.base "driver: bad connection")) "updateCategory" =
      some e ∧ e.is ErrNotFound = false) :=
  ⟨C6_rows_affected_contract.1 "createCategory",
    C6_rows_affected_contract.2.1 "updateCategory" (.base "driver: bad connection") (by decide)⟩

set_option maxRecDepth 100000

/-- **C7 (code-bug evidence).** At the identifier
`f2aa335f-6f91-4d4d-8057-53b0009bc376` absent from the store,
`GetCategoryByID` fails with a `ErrNotFound`-wrapping error whose message
contains that exact identifier and is prefixed with the operation name,
but `GetProductByID` — through the shared format string — fails with a `errNotFound`-wrapping error whose message does
*not* contain the identifier, contradicting the claim and the
repository's own `TestGetProductByID` expectation. -/
theorem C7_get_by_id_message_evidence :
    (∃ e, getCategoryByIDFromStore []
        ⟨[0xf2, 0xaa, 0x33, 0x5f, 0x6f, 0x91, 0x4d, 0x4d,
          0x80, 0x57, 0x53, 0xb0, 0x00, 0x9b, 0xc3, 0x76]⟩ = .error e ∧
      e.is ErrNotFound = true ∧
      stringContains e.message "f2aa335f-6f91-4d4d-8057-53b0009bc376" = true ∧
      isPrefixCheck "getCategoryByID".data e.message.data = true) ∧
    (∃ e, getProductByIDFromStore []
        ⟨[0xf2, 0xaa, 0x33, 0x5f, 0x6f, 0x91, 0x4d, 0x4d,
          0x80, 0x57, 0x53, 0xb0, 0x00, 0x9b, 0xc3, 0x76]⟩ = .error e ∧
      e.is errNotFoundP = true ∧
      stringContains e.message "f2aa335f-6f91-4d4d-8057-53b0009bc376" = false ∧
      isPrefixCheck "GetProductByID".data e.message.data = true) := by
  constructor
  · refine ⟨_, rfl, ?_⟩
    decide
  · refine ⟨_, rfl, ?_⟩
    decide

/-- **C5 (counterexample).** The claim says both list operations return an
empty, *present* list when zero rows match; but `ListProducts` returns
its accumulated slice without the empty-normalization `ListCategories`
has, so with zero matching rows it returns the `nil` slice (`none`,
JSON `null`), not an empty array. -/
theorem C5_counterexample :
    listProducts [] UUID.zero 10 = .ok none ∧
    listProducts [] UUID.zero 10 ≠ .ok (some []) := by
  constructor
  · rfl
  · decide

/-- **C5 (amended).** When zero rows match, `ListCategories` returns an
empty present list (`[]*Category{}`) with has-more=false, a zero cursor
and no error; `ListProducts` (which has no has-more flag) returns the
`nil` slice and no error. -/
theorem C5_empty_result (store : List Category) (minL maxL cursor limit : Int)
    (pstore : List Product) (afterId : UUID) (plimit : Int)
    (hc : store.filter (fun c => decide (cursor ≤ c.createdAt)) = [])
    (hp : pstore.filter (fun p => decide (afterId.val < p.id.val)) = []) :
    listCategories store minL maxL cursor limit =
      { Categories := some [], NextCursor := 0, HasMore := false, Error := none } ∧
    listProducts pstore afterId plimit = .ok none := by
  constructor
  · unfold listCategories
    have hm : matchingCategories store cursor = [] := by
      unfold matchingCategories
      rw [hc]
      rfl
    simp [hm]
  · unfold listProducts
    rw [hp]
    simp [List.insertionSort]

/-- Witness for C5 (amended) at concrete empty stores. -/
theorem C5_witness :
    listCategories [] 10 1000 0 10 =
      { Categories := some [], NextCursor := 0, HasMore := false, Error := none } ∧
    listProducts [] UUID.zero 10 = .ok none :=
  C5_empty_result [] 10 1000 0 10 [] UUID.zero 10 rfl rfl

/-- **C8.** `WriteResponse` encodes into an intermediate buffer before any
byte reaches the client, so: every chunk the client receives is a
complete encoding (never the prefix emitted by a failed encode); when
encoding of the intended body fails, a complete internal-server-error
envelope (code 1600, status "error") is written instead with status 500;
and a failure while copying an already-encoded buffer is only logged,
with no client write delivered and none further attempted. -/
theorem C8_buffered_write (statusCode : Nat) (details : Option BodyVal)
    (writeFails : Bool) :
    (∀ c ∈ (WriteResponse statusCode details writeFails).chunks,
      (∃ j, details = some (.encodable j) ∧ c = j) ∨
        c = errorEnvelopeJSON ErrCodeInternalServerError "Internal server error") ∧
    (∀ p, details = some (.unencodable p) →
      (WriteResponse statusCode details writeFails).status = some 500 ∧
      "error encoding json response" ∈ (WriteResponse statusCode details writeFails).logs ∧
      (writeFails = false →
        (WriteResponse statusCode details writeFails).chunks =
          [errorEnvelopeJSON ErrCodeInternalServerError "Internal server error"])) ∧
    (writeFails = true →
      (WriteResponse statusCode details writeFails).chunks = [] ∧
      (∀ j, details = some (.encodable j) → j.length ≠ 0 →
        (WriteResponse statusCode details writeFails).logs =
          ["error writing response to client"])) := by
  rcases details with _ | d
  · refine ⟨?_, ?_, ?_⟩
    · intro c hc
      simp [WriteResponse, writeBuffered] at hc
    · intro p hp
      cases hp
    · intro hw
      refine ⟨by simp [WriteResponse, writeBuffered], fun j hj => by cases hj⟩
  · rcases d with j | p
    · refine ⟨?_, ?_, ?_⟩
      · intro c hc
        simp only [WriteResponse, writeBuffered] at hc
        by_cases h0 : j.length = 0
        · simp [h0] at hc
        · rcases hw : writeFails with _ | _
          · rw [hw] at hc
            simp [h0] at hc
            exact Or.inl ⟨j, rfl, hc⟩
          · rw [hw] at hc
            simp [h0] at hc
      · intro p hp
        cases hp
      · intro hw
        subst hw
        constructor
        · by_cases h0 : j.length = 0
          · simp [WriteResponse, writeBuffered, h0]
          · simp [WriteResponse, writeBuffered, h0]
        · intro j' hj' h0
          injection hj' with h1
          injection h1 with h2
          subst h2
          simp [WriteResponse, writeBuffered, h0]
    · have hlen : (errorEnvelopeJSON ErrCodeInternalServerError
          "Internal server error").length ≠ 0 := by decide
      refine ⟨?_, ?_, ?_⟩
      · intro c hc
        simp only [WriteResponse, writeBuffered] at hc
        rcases hw : writeFails with _ | _
        · rw [hw] at hc
          simp [hlen] at hc
          exact Or.inr hc
        · rw [hw] at hc
          simp [hlen] at hc
      · intro p' hp'
        refine ⟨?_, ?_, ?_⟩
        · rcases writeFails with _ | _ <;> simp [WriteResponse, writeBuffered, hlen]
        · rcases writeFails with _ | _ <;> simp [WriteResponse, writeBuffered, hlen]
        · intro hw
          subst hw
          simp [WriteResponse, writeBuffered, hlen]
      · intro hw
        subst hw
        refine ⟨by simp [WriteResponse, writeBuffered, hlen], fun j hj _ => by cases hj⟩

/-- Witness for C8: an unencodable body at status 200 with a healthy
client yields the complete fallback envelope at status 500. -/
theorem C8_witness :
    (WriteResponse 200 (some (.unencodable "bad")) false).status = some 500 ∧
    (WriteResponse 200 (some (.unencodable "bad")) false).chunks =
      [errorEnvelopeJSON ErrCodeInternalServerError "Internal server error"] := by
  have h := (C8_buffered_write 200 (some (.unencodable "bad")) false).2.1 "bad" rfl
  exact ⟨h.1, h.2.2 rfl⟩

/-- **C1.** With a sane configuration (`0 ≤ minLimit`) and a valid
requested limit `L ∈ [minLimit, maxLimit]`: the limit clamp is the
identity; `ListCategories` succeeds; it returns at most `L` rows; it
returns exactly `L` rows with has-more=true iff strictly more than `L`
rows match the cursor; when has-more is set, the page is the first `L`
matching rows in (created_at, id) order and the next cursor is the
creation time of the truncated (`L`-th, zero-indexed) fetched row; and
when has-more is not set, the page is all matching rows with a
zero-value cursor. -/
theorem C1_pagination (store : List Category) (minL maxL cursor L : Int)
    (hmin : 0 ≤ minL) (hL1 : minL ≤ L) (hL2 : L ≤ maxL) :
    checkLimit L minL maxL = L ∧
    (listCategories store minL maxL cursor L).Error = none ∧
    (((listCategories store minL maxL cursor L).Categories.getD []).length : Int) ≤ L ∧
    (((((listCategories store minL maxL cursor L).Categories.getD []).length : Int) = L ∧
        (listCategories store minL maxL cursor L).HasMore = true) ↔
      L < ((store.filter (fun c => decide (cursor ≤ c.createdAt))).length : Int)) ∧
    ((listCategories store minL maxL cursor L).HasMore = true →
      (listCategories store minL maxL cursor L).Categories =
        some ((matchingCategories store cursor).take L.toNat) ∧
      (listCategories store minL maxL cursor L).NextCursor =
        ((matchingCategories store cursor).getD L.toNat default).createdAt) ∧
    ((listCategories store minL maxL cursor L).HasMore = false →
      (listCategories store minL maxL cursor L).Categories =
        some (matchingCategories store cursor) ∧
      (listCategories store minL maxL cursor L).NextCursor = 0) := by
  have hL0 : 0 ≤ L := le_trans hmin hL1
  have hcheck : checkLimit L minL maxL = L := by
    unfold checkLimit
    rw [if_neg (by omega), if_neg (by omega)]
  have hlenS : (matchingCategories store cursor).length =
      (store.filter (fun c => decide (cursor ≤ c.createdAt))).length :=
    (List.perm_insertionSort catLE _).length_eq
  have hdef : listCategories store minL maxL cursor L =
      (if ((matchingCategories store cursor).take (L + 1).toNat).length = 0 then
        ⟨some [], 0, false, none⟩
      else if ((((matchingCategories store cursor).take (L + 1).toNat).length : Int) = L + 1) then
        ⟨some (((matchingCategories store cursor).take (L + 1).toNat).take L.toNat),
          ((((matchingCategories store cursor).take (L + 1).toNat)).getD L.toNat
            default).createdAt, true, none⟩
      else ⟨some ((matchingCategories store cursor).take (L + 1).toNat), 0, false, none⟩) := by
    simp only [listCategories]
    rw [hcheck]
  have hrowlen : ((matchingCategories store cursor).take (L + 1).toNat).length =
      min (L + 1).toNat (matchingCategories store cursor).length :=
    List.length_take _ _
  by_cases h0 : ((matchingCategories store cursor).take (L + 1).toNat).length = 0
  · have hmin0 : min (L + 1).toNat (matchingCategories store cursor).length = 0 := by
      rw [← hrowlen]; exact h0
    have hS0 : (matchingCategories store cursor).length = 0 := by
      rcases Nat.min_eq_zero_iff.mp hmin0 with h | h
      · omega
      · exact h
    have hSnil : matchingCategories store cursor = [] := List.length_eq_zero.mp hS0
    rw [hdef, if_pos h0]
    refine ⟨hcheck, rfl, by simp; omega, ?_, ?_, ?_⟩
    · constructor
      · rintro ⟨-, h⟩
        cases h
      · intro h
        exfalso
        rw [← hlenS] at h
        omega
    · intro h
      cases h
    · intro h
      exact ⟨by rw [hSnil], rfl⟩
  · by_cases h1 : ((((matchingCategories store cursor).take (L + 1).toNat).length : Int) = L + 1)
    · have hrl : ((matchingCategories store cursor).take (L + 1).toNat).length =
          (L + 1).toNat := by omega
      have hSge : (L + 1).toNat ≤ (matchingCategories store cursor).length := by
        rw [hrl] at hrowlen
        omega
      have htt : (((matchingCategories store cursor).take (L + 1).toNat).take L.toNat) =
          (matchingCategories store cursor).take L.toNat := by
        rw [List.take_take, Nat.min_eq_left (by omega)]
      have hlen_page : ((matchingCategories store cursor).take L.toNat).length = L.toNat := by
        rw [List.length_take]
        omega
      have hgd : (((matchingCategories store cursor).take (L + 1).toNat).getD L.toNat
          default) = ((matchingCategories store cursor).getD L.toNat default) := by
        show ((((matchingCategories store cursor).take (L + 1).toNat).get? L.toNat).getD
          default) = (((matchingCategories store cursor).get? L.toNat).getD default)
        rw [List.get?_take (by omega)]
      rw [hdef, if_neg h0, if_pos h1]
      refine ⟨hcheck, rfl, ?_, ?_, ?_, ?_⟩
      · simp only [Option.getD_some, htt, hlen_page]
        omega
      · constructor
        · intro _
          rw [← hlenS]
          omega
        · intro _
          constructor
          · simp only [Option.getD_some, htt, hlen_page]
            omega
          · rfl
      · intro _
        exact ⟨by rw [htt], by rw [hgd]⟩
      · intro h
        cases h
    · have hSlt : (matchingCategories store cursor).length < (L + 1).toNat := by
        by_contra hge
        push_neg at hge
        rw [Nat.min_eq_left hge] at hrowlen
        omega
      have hrows : (matchingCategories store cursor).take (L + 1).toNat =
          matchingCategories store cursor :=
        List.take_of_length_le (by omega)
      rw [hdef, if_neg h0, if_neg h1]
      refine ⟨hcheck, rfl, ?_, ?_, ?_, ?_⟩
      · simp only [Option.getD_some, hrows]
        omega
      · constructor
        · rintro ⟨-, h⟩
          cases h
        · intro h
          exfalso
          rw [← hlenS] at h
          omega
      · intro h
        cases h
      · intro _
        exact ⟨by rw [hrows], rfl⟩

/-- Witness for C1 at a concrete configuration and store. -/
theorem C1_witness :
    (((listCategories [] 10 1000 0 10).Categories.getD []).length : Int) ≤ 10 :=
  (C1_pagination [] 10 1000 0 10 (by decide) (by decide) (by decide)).2.2.1

/-- Helper: what the has-more branch of `ListCategories` guarantees — at
least `limit+1` matching rows, the page is the first `limit` of the
sorted matching rows, and the next cursor is the creation time of the
row at index `limit`. -/
theorem listCategories_hasMore_spec (store : List Category) (minL maxL cursor L : Int)
    (hmin : 0 ≤ minL) (hL1 : minL ≤ L) (hL2 : L ≤ maxL)
    (h : (listCategories store minL maxL cursor L).HasMore = true) :
    (L + 1).toNat ≤ (matchingCategories store cursor).length ∧
    (listCategories store minL maxL cursor L).Categories =
      some ((matchingCategories store cursor).take L.toNat) ∧
    (listCategories store minL maxL cursor L).NextCursor =
      ((matchingCategories store cursor).getD L.toNat default).createdAt := by
  have hL0 : 0 ≤ L := le_trans hmin hL1
  have hcheck : checkLimit L minL maxL = L := by
    unfold checkLimit
    rw [if_neg (by omega), if_neg (by omega)]
  have hdef : listCategories store minL maxL cursor L =
      (if ((matchingCategories store cursor).take (L + 1).toNat).length = 0 then
        ⟨some [], 0, false, none⟩
      else if ((((matchingCategories store cursor).take (L + 1).toNat).length : Int) = L + 1) then
        ⟨some (((matchingCategories store cursor).take (L + 1).toNat).take L.toNat),
          ((((matchingCategories store cursor).take (L + 1).toNat)).getD L.toNat
            default).createdAt, true, none⟩
      else ⟨some ((matchingCategories store cursor).take (L + 1).toNat), 0, false, none⟩) := by
    simp only [listCategories]
    rw [hcheck]
  have hrowlen : ((matchingCategories store cursor).take (L + 1).toNat).length =
      min (L + 1).toNat (matchingCategories store cursor).length :=
    List.length_take _ _
  by_cases h0 : ((matchingCategories store cursor).take (L + 1).toNat).length = 0
  · rw [hdef, if_pos h0] at h
    cases h
  · by_cases h1 : ((((matchingCategories store cursor).take (L + 1).toNat).length : Int) = L + 1)
    · have hrl : ((matchingCategories store cursor).take (L + 1).toNat).length =
          (L + 1).toNat := by omega
      have hSge : (L + 1).toNat ≤ (matchingCategories store cursor).length := by
        rw [hrl] at hrowlen
        omega
      have htt : (((matchingCategories store cursor).take (L + 1).toNat).take L.toNat) =
          (matchingCategories store cursor).take L.toNat := by
        rw [List.take_take, Nat.min_eq_left (by omega)]
      have hgd : (((matchingCategories store cursor).take (L + 1).toNat).getD L.toNat
          default) = ((matchingCategories store cursor).getD L.toNat default) := by
        show ((((matchingCategories store cursor).take (L + 1).toNat).get? L.toNat).getD
          default) = (((matchingCategories store cursor).get? L.toNat).getD default)
        rw [List.get?_take (by omega)]
      rw [hdef, if_neg h0, if_pos h1]
      exact ⟨hSge, by rw [htt], by rw [hgd]⟩
    · rw [hdef, if_neg h0, if_neg h1] at h
      cases h

/-- **C9 (counterexample).** With two rows sharing the boundary creation
time and limit 1, the first call truncates `catB` and mints its creation
time as next cursor, but the follow-up call's page starts (and ends) at
`catA` again — the first element is *not* the truncated row. -/
theorem C9_counterexample :
    (listCategories [catA, catB] 1 1000 0 1).HasMore = true ∧
    (listCategories [catA, catB] 1 1000 0 1).NextCursor = 5 ∧
    (matchingCategories [catA, catB] 0).getD 1 default = catB ∧
    (listCategories [catA, catB] 1 1000 0 1).Categories = some [catA] ∧
    (listCategories [catA, catB] 1 1000 5 1).Categories = some [catA] ∧
    ((listCategories [catA, catB] 1 1000 5 1).Categories.getD []).head? ≠ some catB := by
  decide

/-- **C9 (amended).** For an unchanged store, valid limit and a has-more
result with next cursor `c`: `c` is the creation time of the truncated
row; every matching row not returned on the page still satisfies the
next query's filter (`c ≤ created_at` — no matching row is ever excluded
by the cursor at a page boundary); the truncated row itself is fetched
again by the follow-up query; and any returned row whose creation time
equals `c` is fetched again by the follow-up query (boundary duplication
without any concurrent write).  The follow-up page's first element is
the first matching row with creation time ≥ `c`, which need not be the
truncated row (see the counterexample). -/
theorem C9_page_boundary (store : List Category) (minL maxL cursor L : Int)
    (hmin : 0 ≤ minL) (hL1 : minL ≤ L) (hL2 : L ≤ maxL)
    (hmore : (listCategories store minL maxL cursor L).HasMore = true) :
    (listCategories store minL maxL cursor L).NextCursor =
      ((matchingCategories store cursor).getD L.toNat default).createdAt ∧
    (∀ row ∈ matchingCategories store cursor,
      row ∉ (listCategories store minL maxL cursor L).Categories.getD [] →
      (listCategories store minL maxL cursor L).NextCursor ≤ row.createdAt) ∧
    (matchingCategories store cursor).getD L.toNat default ∈
      matchingCategories store ((listCategories store minL maxL cursor L).NextCursor) ∧
    (∀ row ∈ (listCategories store minL maxL cursor L).Categories.getD [],
      row.createdAt = (listCategories store minL maxL cursor L).NextCursor →
      row ∈ matchingCategories store ((listCategories store minL maxL cursor L).NextCursor)) := by
  obtain ⟨hSge, hcats, hnext⟩ :=
    listCategories_hasMore_spec store minL maxL cursor L hmin hL1 hL2 hmore
  have hL0 : 0 ≤ L := le_trans hmin hL1
  have hlt : L.toNat < (matchingCategories store cursor).length := by omega
  have hgetd : (matchingCategories store cursor).getD L.toNat default =
      (matchingCategories store cursor).get ⟨L.toNat, hlt⟩ := by
    show (((matchingCategories store cursor).get? L.toNat).getD default) = _
    rw [List.get?_eq_get hlt]
    rfl
  have hsorted : List.Sorted catLE (matchingCategories store cursor) :=
    List.sorted_insertionSort catLE _
  have htrunc_mem : (matchingCategories store cursor).getD L.toNat default ∈
      matchingCategories store cursor := by
    rw [hgetd]
    exact List.get_mem _ _ _
  have hmem_char : ∀ x : Category, ∀ t : Int, x ∈ matchingCategories store t ↔
      (x ∈ store ∧ t ≤ x.createdAt) := by
    intro x t
    unfold matchingCategories
    rw [List.mem_insertionSort, List.mem_filter]
    simp
  refine ⟨hnext, ?_, ?_, ?_⟩
  · intro row hrow hnotin
    rw [hcats] at hnotin
    simp only [Option.getD_some] at hnotin
    obtain ⟨j, hj⟩ := List.mem_iff_get.mp hrow
    have hjge : L.toNat ≤ (j : Nat) := by
      by_contra hjlt
      push_neg at hjlt
      apply hnotin
      apply List.get?_mem
      rw [List.get?_take hjlt, List.get?_eq_get j.isLt]
      rw [hj]
    have hrel : catLE ((matchingCategories store cursor).get ⟨L.toNat, hlt⟩)
        ((matchingCategories store cursor).get j) :=
      hsorted.rel_get_of_le hjge
    rw [hj] at hrel
    rw [hnext, hgetd]
    unfold catLE at hrel
    rcases hrel with h | h
    · exact le_of_lt h
    · exact le_of_eq h.1
  · rw [hmem_char]
    refine ⟨?_, ?_⟩
    · exact ((hmem_char _ cursor).mp htrunc_mem).1
    · rw [hnext]
  · intro row hrow heq
    rw [hcats] at hrow
    simp only [Option.getD_some] at hrow
    have hrowS : row ∈ matchingCategories store cursor := List.mem_of_mem_take hrow
    rw [hmem_char]
    exact ⟨((hmem_char _ cursor).mp hrowS).1, le_of_eq heq.symm⟩

/-- Witness for C9 (amended) at the boundary-tie store. -/
theorem C9_witness :
    (listCategories [catA, catB] 1 1000 0 1).NextCursor =
      ((matchingCategories [catA, catB] 0).getD 1 default).createdAt :=
  (C9_page_boundary [catA, catB] 1 1000 0 1 (by decide) (by decide) (by decide)
    (by decide)).1

/-- Recovering a `Char` from its code point. -/
theorem charOfNatToNat (c : Char) : Char.ofNat c.toNat = c := by
  rcases c with ⟨v, h⟩
  simp [Char.ofNat, Char.toNat]
  rw [dif_pos (by exact h)]
  apply Char.eq_of_val_eq
  simp [Char.ofNatAux]
  apply UInt32.eq_of_toBitVec_eq
  simp [UInt32.ofNat]
  exact BitVec.eq_of_toNat_eq rfl

/-- The base64 alphabet decodes its own characters. -/
theorem b64_digit_char : ∀ d : Nat, d < 64 → b64Digit (b64Char d) = some d := by
  decide

/-- Go's raw URL-safe base64 decode is a left inverse of encode on byte
lists (strong induction on the length, three bytes per step). -/
theorem decodeB64_encodeB64_aux :
    ∀ (n : Nat) (bs : List Nat), bs.length ≤ n → (∀ b ∈ bs, b < 256) →
      decodeB64 (encodeB64 bs) = some bs := by
  intro n
  induction n with
  | zero =>
    intro bs hlen _
    have hnil : bs = [] := List.eq_nil_of_length_eq_zero (by omega)
    subst hnil
    rfl
  | succ n ih =>
    intro bs hlen hb
    match bs with
    | [] => rfl
    | [b1] =>
      have h1 : b1 < 256 := hb b1 (by simp)
      simp only [encodeB64, decodeB64]
      rw [b64_digit_char _ (by omega), b64_digit_char _ (by omega)]
      simp only [Option.bind_eq_bind, Option.some_bind]
      have : b1 / 4 * 4 + b1 % 4 * 16 / 16 = b1 := by omega
      rw [this]
      rfl
    | [b1, b2] =>
      have h1 : b1 < 256 := hb b1 (by simp)
      have h2 : b2 < 256 := hb b2 (by simp)
      simp only [encodeB64, decodeB64]
      rw [b64_digit_char _ (by omega), b64_digit_char _ (by omega),
        b64_digit_char _ (by omega)]
      simp only [Option.bind_eq_bind, Option.some_bind]
      have e1 : b1 / 4 * 4 + (b1 % 4 * 16 + b2 / 16) / 16 = b1 := by omega
      have e2 : (b1 % 4 * 16 + b2 / 16) % 16 * 16 + b2 % 16 * 4 / 4 = b2 := by omega
      rw [e1, e2]
      rfl
    | b1 :: b2 :: b3 :: rest =>
      have h1 : b1 < 256 := hb b1 (by simp)
      have h2 : b2 < 256 := hb b2 (by simp)
      have h3 : b3 < 256 := hb b3 (by simp)
      have hrest : ∀ b ∈ rest, b < 256 := fun b hbr => hb b (by simp [hbr])
      have hlen' : rest.length ≤ n := by
        simp only [List.length_cons] at hlen
        omega
      simp only [encodeB64, decodeB64]
      rw [b64_digit_char _ (by omega), b64_digit_char _ (by omega),
        b64_digit_char _ (by omega), b64_digit_char _ (by omega)]
      simp only [Option.bind_eq_bind, Option.some_bind]
      rw [ih rest hlen' hrest]
      simp only [Option.bind_eq_bind, Option.some_bind]
      have e1 : b1 / 4 * 4 + (b1 % 4 * 16 + b2 / 16) / 16 = b1 := by omega
      have e2 : (b1 % 4 * 16 + b2 / 16) % 16 * 16 + (b2 % 16 * 4 + b3 / 64) / 4 = b2 := by
        omega
      have e3 : (b2 % 16 * 4 + b3 / 64) % 4 * 64 + b3 % 64 = b3 := by omega
      rw [e1, e2, e3]
      rfl

/-- Base64 round trip at the top level. -/
theorem decodeB64_encodeB64 (bs : List Nat) (h : ∀ b ∈ bs, b < 256) :
    decodeB64 (encodeB64 bs) = some bs :=
  decodeB64_encodeB64_aux bs.length bs le_rfl h

/-- Decimal digit characters: recognized and valued correctly. -/
theorem digitChar_isDigit : ∀ d : Nat, d < 10 → (digitChar d).isDigit = true := by
  decide

theorem digitChar_toNat : ∀ d : Nat, d < 10 → (digitChar d).toNat - 48 = d := by
  decide

theorem digitChar_toNat_lt : ∀ d : Nat, d < 10 → (digitChar d).toNat < 256 := by
  decide

theorem natDigits_length : ∀ (k n : Nat), (natDigits k n).length = k := by
  intro k
  induction k with
  | zero => intro n; rfl
  | succ k ih => intro n; simp [natDigits, ih]

theorem natDigits_mem : ∀ (k n : Nat), n < 10 ^ k →
    ∀ c ∈ natDigits k n, ∃ d, d < 10 ∧ c = digitChar d := by
  intro k
  induction k with
  | zero => intro n _ c hc; cases hc
  | succ k ih =>
    intro n hn c hc
    rcases List.mem_cons.mp hc with h | h
    · refine ⟨n / 10 ^ k, ?_, h⟩
      have hk : 0 < 10 ^ k := Nat.pos_pow_of_pos k (by omega)
      rw [Nat.div_lt_iff_lt_mul hk]
      calc n < 10 ^ (k + 1) := hn
        _ = 10 * 10 ^ k := by rw [pow_succ]; ring
    · exact ih (n % 10 ^ k) (Nat.mod_lt n (Nat.pos_pow_of_pos k (by omega))) c h

/-- Reading back `k` rendered digits recovers the value and the rest. -/
theorem readDigits_natDigits :
    ∀ (k acc n : Nat) (rest : List Char), n < 10 ^ k →
      readDigits acc k (natDigits k n ++ rest) = some (acc * 10 ^ k + n, rest) := by
  intro k
  induction k with
  | zero =>
    intro acc n rest hn
    have hn0 : n = 0 := by omega
    subst hn0
    simp [natDigits, readDigits]
  | succ k ih =>
    intro acc n rest hn
    have hk : 0 < 10 ^ k := Nat.pos_pow_of_pos k (by omega)
    have hq : n / 10 ^ k < 10 := by
      rw [Nat.div_lt_iff_lt_mul hk]
      calc n < 10 ^ (k + 1) := hn
        _ = 10 * 10 ^ k := by rw [pow_succ]; ring
    simp only [natDigits, List.cons_append, readDigits]
    rw [if_pos (digitChar_isDigit _ hq), digitChar_toNat _ hq]
    simp only [List.append_eq]
    rw [ih (acc * 10 + n / 10 ^ k) (n % 10 ^ k) rest (Nat.mod_lt n hk)]
    have heq : (acc * 10 + n / 10 ^ k) * 10 ^ k + n % 10 ^ k = acc * 10 ^ (k + 1) + n := by
      have hdm := Nat.div_add_mod n (10 ^ k)
      generalize hqe : n / 10 ^ k = q at *
      generalize hre : n % 10 ^ k = r at *
      rw [← hdm]
      ring
    rw [heq]

/-- `digitsVal` over rendered digits, accumulator form. -/
theorem digitsVal_natDigits_aux :
    ∀ (k a n : Nat), n < 10 ^ k →
      (natDigits k n).foldl (fun x c => x * 10 + (c.toNat - 48)) a = a * 10 ^ k + n := by
  intro k
  induction k with
  | zero =>
    intro a n hn
    have hn0 : n = 0 := by omega
    subst hn0
    simp [natDigits]
  | succ k ih =>
    intro a n hn
    have hk : 0 < 10 ^ k := Nat.pos_pow_of_pos k (by omega)
    have hq : n / 10 ^ k < 10 := by
      rw [Nat.div_lt_iff_lt_mul hk]
      calc n < 10 ^ (k + 1) := hn
        _ = 10 * 10 ^ k := by rw [pow_succ]; ring
    simp only [natDigits, List.foldl_cons]
    rw [digitChar_toNat _ hq]
    rw [ih (a * 10 + n / 10 ^ k) (n % 10 ^ k) (Nat.mod_lt n hk)]
    have hdm := Nat.div_add_mod n (10 ^ k)
    generalize hqe : n / 10 ^ k = q at *
    generalize hre : n % 10 ^ k = r at *
    rw [← hdm]
    ring

theorem digitsVal_natDigits (k n : Nat) (hn : n < 10 ^ k) :
    digitsVal (natDigits k n) = n := by
  unfold digitsVal
  rw [digitsVal_natDigits_aux k 0 n hn]
  omega

/-- Trimming removes exactly a (possibly empty) run of trailing zeros. -/
theorem trim_spec (l : List Char) :
    ∃ k, l = trimTrailingZeros l ++ List.replicate k '0' := by
  have hsplit := List.takeWhile_append_dropWhile (p := fun c => c == '0') (l := l.reverse)
  have hrep : l.reverse.takeWhile (fun c => c == '0') =
      List.replicate (l.reverse.takeWhile (fun c => c == '0')).length '0' := by
    apply List.eq_replicate_of_mem
    intro b hb
    have hpb := List.mem_takeWhile_imp hb
    simpa using hpb
  refine ⟨(l.reverse.takeWhile (fun c => c == '0')).length, ?_⟩
  conv_lhs => rw [← List.reverse_reverse l, ← hsplit]
  rw [List.reverse_append]
  conv_lhs => rw [hrep]
  rw [List.reverse_replicate]
  unfold trimTrailingZeros
  rfl

theorem trim_mem (l : List Char) (c : Char) (h : c ∈ trimTrailingZeros l) : c ∈ l := by
  obtain ⟨k, hk⟩ := trim_spec l
  rw [hk]
  exact List.mem_append_left _ h

theorem digitsVal_replicate_zero : ∀ k, digitsVal (List.replicate k '0') = 0 := by
  intro k
  induction k with
  | zero => rfl
  | succ k ih => simpa [digitsVal, List.replicate_succ] using ih

/-- `takeWhile`/`dropWhile` split an all-true prefix at the first failing
character. -/
theorem takeWhile_all_append (p : Char → Bool) :
    ∀ (l : List Char) (z : Char) (rs : List Char), (∀ c ∈ l, p c = true) → p z = false →
      (l ++ z :: rs).takeWhile p = l ∧ (l ++ z :: rs).dropWhile p = z :: rs := by
  intro l
  induction l with
  | nil =>
    intro z rs _ hz
    constructor <;> simp [List.takeWhile, List.dropWhile, hz]
  | cons a l ih =>
    intro z rs hall hz
    have ha : p a = true := hall a (by simp)
    have hrec := ih z rs (fun c hc => hall c (by simp [hc])) hz
    constructor <;>
      simp [List.takeWhile_cons, List.dropWhile_cons, ha, hrec.1, hrec.2]

/-- Parsing the rendered fraction recovers the nanosecond count. -/
theorem parseFrac_renderFrac (nano : Nat) (hn : nano < 1000000000) (rs : List Char) :
    parseFrac (renderFrac nano ++ 'Z' :: rs) = some (nano, 'Z' :: rs) := by
  by_cases h0 : nano = 0
  · subst h0
    unfold renderFrac
    rw [if_pos rfl]
    rfl
  · obtain ⟨k, hk⟩ := trim_spec (natDigits 9 nano)
    have hlen9 : (natDigits 9 nano).length = 9 := natDigits_length 9 nano
    have hpow : nano < 10 ^ 9 := by norm_num; omega
    have htlen : (trimTrailingZeros (natDigits 9 nano)).length + k = 9 := by
      have hc := congrArg List.length hk
      simp [hlen9] at hc
      omega
    have hdigits : ∀ c ∈ trimTrailingZeros (natDigits 9 nano), c.isDigit = true := by
      intro c hc
      obtain ⟨d, hd, rfl⟩ := natDigits_mem 9 nano hpow c (trim_mem _ _ hc)
      exact digitChar_isDigit d hd
    have hz : ('Z').isDigit = false := by decide
    have htw := takeWhile_all_append Char.isDigit (trimTrailingZeros (natDigits 9 nano))
      'Z' rs hdigits hz
    have hne : trimTrailingZeros (natDigits 9 nano) ≠ [] := by
      intro hnil
      rw [hnil] at hk
      simp at hk
      have hval := digitsVal_natDigits 9 nano hpow
      rw [hk] at hval
      rw [digitsVal_replicate_zero k] at hval
      omega
    unfold renderFrac
    rw [if_neg h0]
    show parseFrac ('.' :: (trimTrailingZeros (natDigits 9 nano) ++ 'Z' :: rs)) = _
    simp only [parseFrac]
    rw [htw.1, htw.2]
    rw [if_neg (by simpa [List.isEmpty_iff] using hne)]
    have hfv : fracVal (trimTrailingZeros (natDigits 9 nano)) = nano := by
      unfold fracVal
      have hle : (trimTrailingZeros (natDigits 9 nano)).length ≤ 9 := by omega
      rw [List.take_of_length_le hle]
      have hkk : 9 - (trimTrailingZeros (natDigits 9 nano)).length = k := by omega
      rw [hkk, ← hk]
      exact digitsVal_natDigits 9 nano hpow
    rw [hfv]

/-- A `Z` (zero) zone offset leaves the civil coordinates unchanged. -/
theorem applyZone_zero (y : Int) (m d h mi s n : Nat) (hh : h ≤ 23) (hmi : mi ≤ 59) :
    applyZone y m d h mi s n 0 = ⟨y, m, d, h, mi, s, n⟩ := by
  unfold applyZone
  rw [if_neg (by omega), if_neg (by omega)]
  simp only [GoTime.mk.injEq, true_and, and_true]
  constructor <;> omega

theorem daysInMonth_le (y : Int) (m : Nat) : daysInMonth y m ≤ 31 := by
  unfold daysInMonth
  split_ifs <;> omega

/-- Every byte of a rendered timestamp is a byte (indeed ASCII). -/
theorem render_bytes_lt (t : GoTime) (hv : t.Valid) (hy0 : 0 ≤ t.year)
    (hy : t.year ≤ 9999) : ∀ b ∈ charsToBytes (renderRFC3339Nano t), b < 256 := by
  obtain ⟨hm1, hm2, hd1, hd2, hh, hmi, hs, hn⟩ := hv
  intro b hb
  unfold charsToBytes at hb
  obtain ⟨c, hc, rfl⟩ := List.mem_map.mp hb
  have hdig : ∀ (k v : Nat), v < 10 ^ k → c ∈ natDigits k v → c.toNat < 256 := by
    intro k v hvlt hck
    obtain ⟨dd, hdd, rfl⟩ := natDigits_mem k v hvlt c hck
    exact digitChar_toNat_lt dd hdd
  simp only [renderRFC3339Nano, renderYear] at hc
  rw [if_pos (show t.year.natAbs < 10000 by omega), if_neg (by omega)] at hc
  have hdaysle := daysInMonth_le t.year t.month
  rcases List.mem_append.mp hc with hc | hz
  · rcases List.mem_append.mp hc with hc | hfrac
    · rcases List.mem_append.mp hc with hc | hsec
      · rcases List.mem_append.mp hc with hc | hminc
        · rcases List.mem_append.mp hc with hc | hhc
          · rcases List.mem_append.mp hc with hc | hdc
            · rcases List.mem_append.mp hc with hyc | hmc
              · exact hdig 4 t.year.natAbs (by norm_num; omega) hyc
              · rcases List.mem_cons.mp hmc with h1 | h1
                · subst h1; decide
                · exact hdig 2 t.month (by omega) h1
            · rcases List.mem_cons.mp hdc with h1 | h1
              · subst h1; decide
              · exact hdig 2 t.day (by omega) h1
          · rcases List.mem_cons.mp hhc with h1 | h1
            · subst h1; decide
            · exact hdig 2 t.hour (by omega) h1
        · rcases List.mem_cons.mp hminc with h1 | h1
          · subst h1; decide
          · exact hdig 2 t.minute (by omega) h1
      · rcases List.mem_cons.mp hsec with h1 | h1
        · subst h1; decide
        · exact hdig 2 t.second (by omega) h1
    · unfold renderFrac at hfrac
      by_cases h0 : t.nano = 0
      · rw [if_pos h0] at hfrac
        cases hfrac
      · rw [if_neg h0] at hfrac
        rcases List.mem_cons.mp hfrac with h1 | h1
        · subst h1; decide
        · exact hdig 9 t.nano (by norm_num; omega) (trim_mem _ _ h1)
  · rcases List.mem_cons.mp hz with h1 | h1
    · subst h1; decide
    · cases h1

theorem expectChar_cons_self (c : Char) (rest : List Char) :
    expectChar c (c :: rest) = some rest := by
  simp [expectChar]

theorem parseZone_z : parseZone ['Z'] = some 0 := rfl

set_option maxHeartbeats 2000000

/-- Parsing a rendered valid UTC timestamp with a four-digit year
recovers it exactly. -/
theorem parseRFC3339Nano_render (t : GoTime) (hv : t.Valid) (hy0 : 0 ≤ t.year)
    (hy : t.year ≤ 9999) :
    parseRFC3339Nano (renderRFC3339Nano t) = some t := by
  obtain ⟨hm1, hm2, hd1, hd2, hh, hmi, hs, hn⟩ := hv
  have hdaysle := daysInMonth_le t.year t.month
  have hrender : renderRFC3339Nano t =
      natDigits 4 t.year.natAbs ++ ('-' :: (natDigits 2 t.month ++ ('-' ::
        (natDigits 2 t.day ++ ('T' :: (natDigits 2 t.hour ++ (':' ::
        (natDigits 2 t.minute ++ (':' :: (natDigits 2 t.second ++
        (renderFrac t.nano ++ ['Z']))))))))))) := by
    simp only [renderRFC3339Nano, renderYear]
    rw [if_pos (show t.year.natAbs < 10000 by omega), if_neg (by omega)]
    simp [List.append_assoc]
  rw [hrender]
  unfold parseRFC3339Nano
  rw [readDigits_natDigits 4 0 t.year.natAbs _ (by norm_num; omega)]
  simp only [Option.bind_eq_bind, Option.some_bind]
  rw [expectChar_cons_self]
  simp only [Option.some_bind]
  rw [readDigits_natDigits 2 0 t.month _ (by omega)]
  simp only [Option.some_bind]
  rw [expectChar_cons_self]
  simp only [Option.some_bind]
  rw [readDigits_natDigits 2 0 t.day _ (by omega)]
  simp only [Option.some_bind]
  rw [expectChar_cons_self]
  simp only [Option.some_bind]
  rw [readDigits_natDigits 2 0 t.hour _ (by omega)]
  simp only [Option.some_bind]
  rw [expectChar_cons_self]
  simp only [Option.some_bind]
  rw [readDigits_natDigits 2 0 t.minute _ (by omega)]
  simp only [Option.some_bind]
  rw [expectChar_cons_self]
  simp only [Option.some_bind]
  rw [readDigits_natDigits 2 0 t.second _ (by omega)]
  simp only [Option.some_bind]
  rw [parseFrac_renderFrac t.nano (by omega) []]
  simp only [Option.some_bind]
  rw [parseZone_z]
  simp only [Option.some_bind]
  simp only [Nat.zero_mul, Nat.zero_add]
  have hcast : ((t.year.natAbs : Nat) : Int) = t.year := Int.natAbs_of_nonneg hy0
  rw [hcast]
  rw [if_pos ⟨hm1, hm2, hd1, hd2, hh, hmi, hs⟩]
  rw [applyZone_zero _ _ _ _ _ _ _ hh hmi]
